import Mathlib

/-
Verification of the async UDP sketch (udp_async_sketch.cpp): a shallow
embedding of the three backend socket implementations and their event
loops.  Syscall outcomes (sendto / recvfrom / kevent registration /
io_uring submission-queue availability) are supplied as explicit
environment arguments; completion callbacks are modelled by numeric
handler identifiers, and each invocation of a callback is recorded as an
`event` in the returned event list.
-/

set_option autoImplicit false

namespace UdpSketch

/-- AF_INET address family constant. -/
def AF_INET : Nat := 2

/-- EAGAIN errno on the kqueue targets (Darwin/FreeBSD). -/
def EAGAIN : Nat := 35

/-- EWOULDBLOCK errno on the kqueue targets (same value as EAGAIN there). -/
def EWOULDBLOCK : Nat := 35

/-- EBUSY errno on Linux (the io_uring target). -/
def EBUSY : Nat := 16

/-- htons: byte-swap of a 16-bit value (little-endian host). -/
def htons (x : Nat) : Nat :=
  (x % 256) * 256 + (x / 256) % 256

/-- ntohs: inverse of htons; the same byte swap. -/
def ntohs (x : Nat) : Nat := htons x

/-- htonl: byte-swap of a 32-bit value (little-endian host). -/
def htonl (x : Nat) : Nat :=
  (x % 256) * 16777216 + ((x / 256) % 256) * 65536 +
    ((x / 65536) % 256) * 256 + (x / 16777216) % 256

/-- ntohl: inverse of htonl; the same byte swap. -/
def ntohl (x : Nat) : Nat := htonl x

/-- Kernel-format IPv4 socket address (sockaddr_in): family plus
network-byte-order address and port. -/
structure sockaddr_in where
  sin_family : Nat
  sin_addr : Nat
  sin_port : Nat
deriving DecidableEq

/-- The sketch's endpoint value: numeric host-order address and port plus
the embedded kernel-format storage (the `sin` member of the union). -/
structure endpoint where
  address : Nat
  port : Nat
  sin : sockaddr_in
deriving DecidableEq

/-- `endpoint ep{}` in C++: all fields zero, including the union. -/
def endpoint.zero : endpoint := ⟨0, 0, ⟨0, 0, 0⟩⟩

/-- One invocation of a completion callback: handler id, error code
(0 for success, otherwise the errno delivered), byte count, and for
receives the source endpoint handed to the handler. -/
inductive event where
  | sendDone (h : Nat) (ec : Nat) (bytes : Nat)
  | recvDone (h : Nat) (ec : Nat) (bytes : Nat) (src : endpoint)
deriving DecidableEq, Inhabited

/-- Error code carried by an event. -/
def event.ecOf : event → Nat
  | .sendDone _ e _ => e
  | .recvDone _ e _ _ => e

/-- Byte count carried by an event. -/
def event.bytesOf : event → Nat
  | .sendDone _ _ b => b
  | .recvDone _ _ b _ => b

/-- Outcome of a sendto syscall: `ok bytes` for a non-negative return,
`fail errno` for a -1 return with the given errno. -/
inductive sendSys where
  | ok (bytes : Nat)
  | fail (errno : Nat)
deriving DecidableEq

/-- Outcome of a recvfrom/recvmsg syscall.  `dgram size fam a p` models a
datagram of `size` bytes available from a sender whose kernel-format
address has family `fam`, address `a` and port `p` (network byte order);
per POSIX UDP semantics the syscall then returns `min size capacity` and
discards the excess.  `fail errno` models a -1 return. -/
inductive recvSys where
  | dgram (size : Nat) (fam : Nat) (a : Nat) (p : Nat)
  | fail (errno : Nat)
deriving DecidableEq

/-- The C++ test `errno == EAGAIN || errno == EWOULDBLOCK` (the sketch
writes its negation: `errno != EAGAIN && errno != EWOULDBLOCK`). -/
def is_would_block (e : Nat) : Bool :=
  (e == EAGAIN) || (e == EWOULDBLOCK)

/-- Whether a sendto outcome is a would-block failure. -/
def sendSys.wouldBlock : sendSys → Bool
  | .ok _ => false
  | .fail e => is_would_block e

/-- Whether a recvfrom outcome is a would-block failure. -/
def recvSys.wouldBlock : recvSys → Bool
  | .dgram _ _ _ _ => false
  | .fail e => is_would_block e

/-- kqueue_udp_socket::pending_ops: the per-descriptor record of the one
pending send and one pending receive (buffer views are modelled by their
capacity). -/
structure pending_ops where
  send_handler : Option Nat
  send_buffer_cap : Nat
  send_endpoint : endpoint
  recv_handler : Option Nat
  recv_buffer_cap : Nat
deriving DecidableEq

/-- Default-constructed pending_ops (what std::map operator[] inserts). -/
def pending_ops.default : pending_ops := ⟨none, 0, endpoint.zero, none, 0⟩

/-- The fd -> pending_ops std::map, as an association list with unique
keys. -/
abbrev fd_map := List (Nat × pending_ops)

/-- map.find(fd). -/
def fd_map.find? : fd_map → Nat → Option pending_ops
  | [], _ => none
  | (k, v) :: rest, fd => if k = fd then some v else fd_map.find? rest fd

/-- map[fd] = v: replace the entry for fd, or append one. -/
def fd_map.insert : fd_map → Nat → pending_ops → fd_map
  | [], fd, v => [(fd, v)]
  | (k, w) :: rest, fd, v =>
      if k = fd then (k, v) :: rest else (k, w) :: fd_map.insert rest fd v

/-- map.erase(fd). -/
def fd_map.erase : fd_map → Nat → fd_map
  | [], _ => []
  | (k, w) :: rest, fd =>
      if k = fd then rest else (k, w) :: fd_map.erase rest fd

/-- Readiness direction: EVFILT_READ or EVFILT_WRITE. -/
inductive direction where
  | read
  | write
deriving DecidableEq

/-- kevent EV_ADD|EV_ENABLE: register interest (idempotent in the
kernel). -/
def add_interest (l : List (Nat × direction)) (fd : Nat) (d : direction) :
    List (Nat × direction) :=
  if (fd, d) ∈ l then l else (fd, d) :: l

/-- kevent EV_DELETE: remove the registration for (fd, d). -/
def del_interest (l : List (Nat × direction)) (fd : Nat) (d : direction) :
    List (Nat × direction) :=
  l.filter (fun p => !(p.1 == fd && p.2 == d))

/-- State shared by the kqueue backend: the static descriptor ->
pending-operations table, and the set of filters currently registered
with the kqueue. -/
structure kq_state where
  pending : fd_map
  interest : List (Nat × direction)
deriving DecidableEq

/-- kqueue_udp_socket::async_send_to (udp_async_sketch.cpp:530-566):
try an immediate sendto; on success or on a non-would-block errno invoke
the handler synchronously and return; on EAGAIN/EWOULDBLOCK store the
operation in the pending table and register write interest; if that
kevent registration fails, deliver its errno to the handler and clear
the stored handler. -/
def kq_async_send_to (st : kq_state) (fd : Nat) (data_cap : Nat)
    (ep : endpoint) (h : Nat) (sys : sendSys) (kev : Option Nat) :
    kq_state × List event :=
  match sys with
  | .ok bytes => (st, [.sendDone h 0 bytes])
  | .fail e =>
    if !(is_would_block e) then
      (st, [.sendDone h e 0])
    else
      let ops0 := (fd_map.find? st.pending fd).getD pending_ops.default
      let ops1 := { ops0 with send_handler := some h,
                              send_buffer_cap := data_cap,
                              send_endpoint := ep }
      match kev with
      | none =>
          ({ pending := fd_map.insert st.pending fd ops1,
             interest := add_interest st.interest fd .write }, [])
      | some ke =>
          ({ pending := fd_map.insert st.pending fd
                          { ops1 with send_handler := none },
             interest := st.interest }, [.sendDone h ke 0])

/-- Source endpoint constructed by the kqueue immediate receive path and
by handle_ready: populated only for an AF_INET sender, otherwise the
zero endpoint; the embedded `sin` storage is not copied. -/
def kq_src_endpoint (fam a p : Nat) : endpoint :=
  if fam = AF_INET then
    { endpoint.zero with address := ntohl a, port := ntohs p }
  else endpoint.zero

/-- kqueue_udp_socket::async_receive_from (udp_async_sketch.cpp:568-606):
try an immediate recvfrom; on success invoke the handler with the
(possibly truncated) byte count and the source endpoint; on a
non-would-block errno invoke it with that error and a zero endpoint; on
EAGAIN/EWOULDBLOCK store the operation and register read interest,
delivering the kevent errno on registration failure. -/
def kq_async_receive_from (st : kq_state) (fd : Nat) (cap : Nat) (h : Nat)
    (sys : recvSys) (kev : Option Nat) : kq_state × List event :=
  match sys with
  | .dgram n fam a p =>
      (st, [.recvDone h 0 (min n cap) (kq_src_endpoint fam a p)])
  | .fail e =>
    if !(is_would_block e) then
      (st, [.recvDone h e 0 endpoint.zero])
    else
      let ops0 := (fd_map.find? st.pending fd).getD pending_ops.default
      let ops1 := { ops0 with recv_handler := some h,
                              recv_buffer_cap := cap }
      match kev with
      | none =>
          ({ pending := fd_map.insert st.pending fd ops1,
             interest := add_interest st.interest fd .read }, [])
      | some ke =>
          ({ pending := fd_map.insert st.pending fd
                          { ops1 with recv_handler := none },
             interest := st.interest }, [.recvDone h ke 0 endpoint.zero])

/-- kqueue_udp_socket::handle_ready (udp_async_sketch.cpp:628-691): look
up the descriptor's pending operations; for the signalled direction,
retry the syscall, invoke the stored handler with whatever the retry
produced (success or any errno, EAGAIN included), clear the stored
handler and deregister interest for that direction. -/
def kq_handle_ready (st : kq_state) (fd : Nat) (filter : direction)
    (ssys : sendSys) (rsys : recvSys) : kq_state × List event :=
  match fd_map.find? st.pending fd with
  | none => (st, [])
  | some ops =>
    match filter with
    | .write =>
      match ops.send_handler with
      | none => (st, [])
      | some h =>
        let ev : event :=
          match ssys with
          | .ok bytes => .sendDone h 0 bytes
          | .fail e => .sendDone h e 0
        ({ pending := fd_map.insert st.pending fd
                        { ops with send_handler := none },
           interest := del_interest st.interest fd .write }, [ev])
    | .read =>
      match ops.recv_handler with
      | none => (st, [])
      | some h =>
        let ev : event :=
          match rsys with
          | .dgram n fam a p =>
              .recvDone h 0 (min n ops.recv_buffer_cap)
                (kq_src_endpoint fam a p)
          | .fail e => .recvDone h e 0 endpoint.zero
        ({ pending := fd_map.insert st.pending fd
                        { ops with recv_handler := none },
           interest := del_interest st.interest fd .read }, [ev])

/-- kqueue_udp_socket::close (udp_async_sketch.cpp:608-622): if the
descriptor is open, delete both kevent filters, erase the descriptor's
pending operations from the table, and close the fd.  No handler is
invoked: the returned event list is what close delivers to callbacks. -/
def kq_close (st : kq_state) (fd : Nat) (is_open : Bool) :
    kq_state × List event :=
  if is_open then
    ({ pending := fd_map.erase st.pending fd,
       interest := del_interest (del_interest st.interest fd .read)
                     fd .write }, [])
  else (st, [])

/-- Pending send handler stored for a descriptor, if any. -/
def pending_send_of (st : kq_state) (fd : Nat) : Option Nat :=
  match fd_map.find? st.pending fd with
  | none => none
  | some ops => ops.send_handler

/-- Pending receive handler stored for a descriptor, if any. -/
def pending_recv_of (st : kq_state) (fd : Nat) : Option Nat :=
  match fd_map.find? st.pending fd with
  | none => none
  | some ops => ops.recv_handler

/-- A submission-queue entry produced by io_uring_udp_socket::async_send_to:
the operation's identity and the wire destination written into the
operation record's `addr` field. -/
structure sqe_send where
  opId : Nat
  dest : sockaddr_in
deriving DecidableEq

/-- Destination selection in io_uring_udp_socket::async_send_to
(udp_async_sketch.cpp:350-365): if the endpoint's embedded storage has
family AF_INET, memcpy that sockaddr_in; otherwise construct one from
the numeric address and port via htonl/htons. -/
def io_uring_send_dest (ep : endpoint) : sockaddr_in :=
  if ep.sin.sin_family = AF_INET then ep.sin
  else { sin_family := AF_INET, sin_addr := htonl ep.address,
         sin_port := htons ep.port }

/-- io_uring_udp_socket::send_operation::complete
(udp_async_sketch.cpp:275-287): negative results become the errno
`-result` with 0 bytes; non-negative results become a success with
`result` bytes.  The record deletes itself right after the handler. -/
def ring_send_complete (h : Nat) (result : Int) : event :=
  if result < 0 then .sendDone h (-result).toNat 0
  else .sendDone h 0 result.toNat

/-- io_uring_udp_socket::receive_operation::complete
(udp_async_sketch.cpp:299-321): on a negative result the handler gets
the errno, 0 bytes and a zero endpoint; on success, the endpoint is
populated (address, port and the embedded sin copy) only when the
captured sender family is AF_INET, and stays zero otherwise. -/
def ring_recv_complete (h : Nat) (result : Int) (fam a p : Nat) : event :=
  if result < 0 then .recvDone h (-result).toNat 0 endpoint.zero
  else
    let ep : endpoint :=
      if fam = AF_INET then
        { address := ntohl a, port := ntohs p, sin := ⟨fam, a, p⟩ }
      else endpoint.zero
    .recvDone h 0 result.toNat ep

/-- io_uring_udp_socket::async_send_to (udp_async_sketch.cpp:344-376):
allocate the record, compute the destination, then io_uring_get_sqe; if
the submission queue is full (no sqe), complete the record inline with
-EBUSY (delivering EBUSY to the handler and freeing the record) and
return; otherwise fill the sqe and tag it with the record. -/
def io_uring_async_send_to (ep : endpoint) (h : Nat) (sqe_avail : Bool) :
    Option sqe_send × List event :=
  if sqe_avail then (some ⟨h, io_uring_send_dest ep⟩, [])
  else (none, [ring_send_complete h (-(EBUSY : Int))])

/-- io_uring_udp_socket::async_receive_from (udp_async_sketch.cpp:378-406):
allocate the record, then io_uring_get_sqe; if the submission queue is
full, complete inline with -EBUSY; otherwise prepare a recvmsg sqe
(returned as the record id and buffer capacity) tagged with the record. -/
def io_uring_async_receive_from (cap : Nat) (h : Nat) (sqe_avail : Bool) :
    Option (Nat × Nat) × List event :=
  if sqe_avail then (some (h, cap), [])
  else (none, [ring_recv_complete h (-(EBUSY : Int)) 0 0 0])

/-- OS model (POSIX UDP semantics): a recvmsg/recvfrom into a buffer of
capacity `cap` when a datagram of `dgram` bytes is available returns
`min dgram cap` and silently discards the excess bytes. -/
def os_recv_result (dgram cap : Nat) : Int := Int.ofNat (min dgram cap)

/-- A wake primitive an event loop's stop() may emit to unblock a thread
sitting in the loop's wait call. -/
inductive wake_signal where
  | ring_nop
deriving DecidableEq

/-- kqueue_event_loop state: just the running flag. -/
structure kq_loop where
  running : Bool
deriving DecidableEq

/-- kqueue_event_loop::stop (udp_async_sketch.cpp:737-741): sets
running_ to false and emits no wake signal (the source comments that a
pipe or eventfd would be needed to wake kevent). -/
def kqueue_event_loop_stop (_l : kq_loop) : kq_loop × List wake_signal :=
  ({ running := false }, [])

/-- Model of the blocking `kevent(kq, NULL, 0, events, 64, NULL)` call in
kqueue_event_loop::run: with a NULL timeout it returns only once at
least one ready event or wake signal has arrived. -/
def kevent_wait_returns (ready : List (Nat × direction))
    (wakes : List wake_signal) : Bool :=
  !(ready.isEmpty && wakes.isEmpty)

/-- io_uring_event_loop state: the running flag, the completion queue
(entries are `some (handler, result)`, or `none` for a null user-data
completion such as the stop nop), and the identities of operation
records submitted to the ring and not yet completed. -/
structure ring_loop where
  running : Bool
  cq : List (Option (Nat × Int))
  inflight : List Nat
deriving DecidableEq

/-- io_uring_event_loop::run (udp_async_sketch.cpp:434-456): while
running, take the next completion; a null user-data entry is skipped,
otherwise the matching record's complete() runs (one event) and the
record is destroyed.  Returns the final state, the events fired and the
identities of the records destroyed.  An empty completion queue models a
wait that blocks; running_ = false makes the loop return at once,
touching no in-flight record. -/
def io_uring_run : Nat → ring_loop → ring_loop × List event × List Nat
  | 0, st => (st, [], [])
  | fuel + 1, st =>
    if st.running then
      match st.cq with
      | [] => (st, [], [])
      | none :: rest =>
          io_uring_run fuel { st with cq := rest }
      | some (h, res) :: rest =>
          let st1 : ring_loop :=
            { st with cq := rest, inflight := st.inflight.erase h }
          let r := io_uring_run fuel st1
          (r.1, ring_send_complete h res :: r.2.1, h :: r.2.2)
    else (st, [], [])

/-- Number of events in a trace that invoke the send handler `h`. -/
def countSend (l : List event) (h : Nat) : Nat :=
  l.countP (fun e =>
    match e with
    | .sendDone h' _ _ => h' == h
    | _ => false)

/-- Number of events in a trace that invoke the receive handler `h`. -/
def countRecv (l : List event) (h : Nat) : Nat :=
  l.countP (fun e =>
    match e with
    | .recvDone h' _ _ _ => h' == h
    | _ => false)

/-- Whether an async_send_to call left its operation registered pending
(would-block syscall outcome and successful kevent registration). -/
def send_registered (sys : sendSys) (kev : Option Nat) : Bool :=
  match sys, kev with
  | .fail e, none => is_would_block e
  | _, _ => false

/-- Whether an async_receive_from call left its operation registered. -/
def recv_registered (sys : recvSys) (kev : Option Nat) : Bool :=
  match sys, kev with
  | .fail e, none => is_would_block e
  | _, _ => false

/-- One kqueue async_send_to call followed, when the call registered the
operation, by the loop's dispatch of the matching write-readiness
(handle_ready).  The result is the full trace of callback invocations
this operation can produce. -/
def kq_send_then_dispatch (st : kq_state) (fd data_cap : Nat)
    (ep : endpoint) (h : Nat) (sys : sendSys) (kev : Option Nat)
    (ssys : sendSys) (rsys : recvSys) : List event :=
  let r := kq_async_send_to st fd data_cap ep h sys kev
  if send_registered sys kev then
    r.2 ++ (kq_handle_ready r.1 fd .write ssys rsys).2
  else r.2

/-- One kqueue async_receive_from call followed, when the call
registered the operation, by the loop's dispatch of the matching
read-readiness. -/
def kq_recv_then_dispatch (st : kq_state) (fd cap : Nat) (h : Nat)
    (sys : recvSys) (kev : Option Nat) (ssys : sendSys) (rsys : recvSys) :
    List event :=
  let r := kq_async_receive_from st fd cap h sys kev
  if recv_registered sys kev then
    r.2 ++ (kq_handle_ready r.1 fd .read ssys rsys).2
  else r.2

/-- One io_uring async_send_to call followed, when a submission entry
was enqueued, by the loop's completion dispatch with kernel result
`res`. -/
def ring_send_then_dispatch (ep : endpoint) (h : Nat) (sqe_avail : Bool)
    (res : Int) : List event :=
  let r := io_uring_async_send_to ep h sqe_avail
  match r.1 with
  | some e => r.2 ++ [ring_send_complete e.opId res]
  | none => r.2

/-- One io_uring async_receive_from call followed, when a submission
entry was enqueued, by the loop's completion dispatch with kernel
result `res` and captured sender address (fam, a, p). -/
def ring_recv_then_dispatch (cap : Nat) (h : Nat) (sqe_avail : Bool)
    (res : Int) (fam a p : Nat) : List event :=
  let r := io_uring_async_receive_from cap h sqe_avail
  match r.1 with
  | some s => r.2 ++ [ring_recv_complete s.1 res fam a p]
  | none => r.2

/-- WSA_IO_PENDING: the overlapped operation was accepted and will
complete through the completion port. -/
def WSA_IO_PENDING : Nat := 997

/-- An IOCP operation record: the handler identity and the operation
kind; a receive's sender address is written by the kernel into the
record and read at completion time. -/
inductive iocp_op where
  | send (h : Nat)
  | recv (h : Nat)
deriving DecidableEq

/-- iocp_udp_socket::send_operation::complete and
receive_operation::complete (udp_async_sketch.cpp:83-116): build the
error code from the DWORD error (0 means success); for a receive,
populate the source endpoint only when there is no error and the
captured family is AF_INET; invoke the handler; delete the record. -/
def iocp_complete (op : iocp_op) (bytes e fam a p : Nat) : event :=
  match op with
  | .send h => .sendDone h e bytes
  | .recv h =>
      let ep : endpoint :=
        if e = 0 ∧ fam = AF_INET then
          { endpoint.zero with address := ntohl a, port := ntohs p }
        else endpoint.zero
      .recvDone h e bytes ep

/-- iocp_udp_socket::async_send_to (udp_async_sketch.cpp:149-172):
WSASendTo on the overlapped socket; on success or on SOCKET_ERROR with
WSA_IO_PENDING the record is owned by the port and completes from the
loop; any other error completes the record inline with that error and
0 bytes. -/
def iocp_async_send_to (h : Nat) (sys : sendSys) :
    Option iocp_op × List event :=
  match sys with
  | .ok _ => (some (.send h), [])
  | .fail e =>
      if e = WSA_IO_PENDING then (some (.send h), [])
      else (none, [iocp_complete (.send h) 0 e 0 0 0])

/-- iocp_udp_socket::async_receive_from (udp_async_sketch.cpp:174-192):
WSARecvFrom, with the same immediate-failure rule as the send path. -/
def iocp_async_receive_from (h : Nat) (sys : recvSys) :
    Option iocp_op × List event :=
  match sys with
  | .dgram _ _ _ _ => (some (.recv h), [])
  | .fail e =>
      if e = WSA_IO_PENDING then (some (.recv h), [])
      else (none, [iocp_complete (.recv h) 0 e 0 0 0])

/-- One GetQueuedCompletionStatus dequeue observed by
iocp_event_loop::run: TRUE with a null overlapped pointer (a posted
wake), TRUE with a completed operation (bytes transferred and, for a
receive, the captured sender address), or FALSE (a failed completion or
wait error). -/
inductive iocp_item where
  | wake
  | comp (op : iocp_op) (bytes fam a p : Nat)
  | failed
deriving DecidableEq

/-- iocp_event_loop::run (udp_async_sketch.cpp:227-238): while
GetQueuedCompletionStatus returns TRUE, non-null overlapped results are
dispatched to handle_completion with error 0 and null ones skipped; a
FALSE return ends the while loop at once, so run() returns and the
operation dequeued by that failed call never has its callback
invoked. -/
def iocp_run : List iocp_item → List event
  | [] => []
  | .wake :: rest => iocp_run rest
  | .comp op bytes fam a p :: rest =>
      iocp_complete op bytes 0 fam a p :: iocp_run rest
  | .failed :: _ => []

/-- One IOCP async_send_to call followed, when the record was handed to
the port, by the successful dequeue of its completion. -/
def iocp_send_then_dispatch (h : Nat) (sys : sendSys) (bytes : Nat) :
    List event :=
  let r := iocp_async_send_to h sys
  match r.1 with
  | some op => r.2 ++ iocp_run [.comp op bytes 0 0 0]
  | none => r.2

/-- One IOCP async_receive_from call followed, when the record was
handed to the port, by the successful dequeue of its completion. -/
def iocp_recv_then_dispatch (h : Nat) (sys : recvSys)
    (bytes fam a p : Nat) : List event :=
  let r := iocp_async_receive_from h sys
  match r.1 with
  | some op => r.2 ++ iocp_run [.comp op bytes fam a p]
  | none => r.2

/-- Concrete scenario for the readiness backend: a first async_send_to
(handler 1) would-blocks and registers; a second async_send_to
(handler 2) on the same descriptor also would-blocks and overwrites the
stored record. -/
def overwrite_call1 : kq_state × List event :=
  kq_async_send_to ⟨[], []⟩ 3 4 endpoint.zero 1 (.fail EAGAIN) none

/-- Second call of the overwrite scenario. -/
def overwrite_call2 : kq_state × List event :=
  kq_async_send_to overwrite_call1.1 3 4 endpoint.zero 2 (.fail EAGAIN) none

/-- The write-readiness dispatch that follows the overwrite scenario. -/
def overwrite_dispatch : kq_state × List event :=
  kq_handle_ready overwrite_call2.1 3 .write (.ok 4) (.fail EAGAIN)

/-- Every callback invocation produced across the overwrite scenario. -/
def overwrite_trace : List event :=
  overwrite_call1.2 ++ overwrite_call2.2 ++ overwrite_dispatch.2

/-- A kqueue state with a send operation (handler 5) pending on
descriptor 3 and write interest registered. -/
def pending_send_state : kq_state :=
  ⟨[(3, ⟨some 5, 4, endpoint.zero, none, 0⟩)], [(3, .write)]⟩

/-- A kqueue state with a receive operation (handler 9) pending on
descriptor 3 and read interest registered. -/
def pending_recv_state : kq_state :=
  ⟨[(3, ⟨none, 0, endpoint.zero, some 9, 8⟩)], [(3, .read)]⟩

theorem fd_map.find?_insert (m : fd_map) (fd : Nat) (v : pending_ops) :
    fd_map.find? (fd_map.insert m fd v) fd = some v := by
  induction m with
  | nil => simp [fd_map.insert, fd_map.find?]
  | cons kv rest ih =>
    obtain ⟨k, w⟩ := kv
    by_cases hk : k = fd
    · simp [fd_map.insert, hk, fd_map.find?]
    · simp [fd_map.insert, hk, fd_map.find?, ih]

theorem mem_add_interest (l : List (Nat × direction)) (fd : Nat)
    (d : direction) : (fd, d) ∈ add_interest l fd d := by
  unfold add_interest
  split
  · assumption
  · exact List.mem_cons_self _ _

/-- C1: calling close() on a socket with an operation still registered
must invoke that operation's callback exactly once with a
Cancelled/OperationAborted error before the record is destroyed.  The
code refutes this: kqueue_udp_socket::close erases the descriptor's
pending record from the table and delivers nothing — the pending
receive's callback runs zero times, not once. -/
theorem close_destroys_pending_record_without_callback :
    (kq_close pending_recv_state 3 true).2 = [] ∧
    fd_map.find? (kq_close pending_recv_state 3 true).1.pending 3 = none ∧
    pending_recv_of pending_recv_state 3 = some 9 := by decide

/-- C3: after stop(), a thread blocked in run()'s wait call is woken and
run() returns, in all three backends.  The code refutes this for the
kqueue backend: kqueue_event_loop::stop only clears the running flag and
emits no wake signal, and the blocking kevent call with a NULL timeout
does not return while no ready event or wake signal has arrived. -/
theorem kqueue_stop_emits_no_wake_signal :
    (kqueue_event_loop_stop ⟨true⟩).1.running = false ∧
    (kqueue_event_loop_stop ⟨true⟩).2 = [] ∧
    kevent_wait_returns [] (kqueue_event_loop_stop ⟨true⟩).2 = false := by
  decide

/-- C5: under the ring backend a full submission queue must lead to an
internal resubmission, with ResourceExhausted never delivered to the
caller as a terminal error.  The code refutes this: when
io_uring_get_sqe returns null, both async_send_to and
async_receive_from complete the operation inline with -EBUSY — the
callback receives EBUSY as a terminal error, nothing is submitted, and
no retry happens. -/
theorem sq_full_delivers_ebusy_terminal :
    io_uring_async_send_to endpoint.zero 5 false =
      (none, [.sendDone 5 EBUSY 0]) ∧
    io_uring_async_receive_from 8 6 false =
      (none, [.recvDone 6 EBUSY 0 endpoint.zero]) := by decide

/-- C7: every operation record must be destroyed exactly once,
immediately after its callback runs, and must still be destroyed on
loop shutdown.  The code refutes the shutdown half: after stop()
(running flag false), io_uring_event_loop::run returns without touching
the ring, so a record still in flight (id 7) is neither completed nor
destroyed — it leaks.  The first conjunct shows the normal path does
destroy the record right after its callback. -/
theorem loop_shutdown_leaks_inflight_record :
    io_uring_run 5 ⟨true, [some (7, 4)], [7]⟩ =
      (⟨true, [], []⟩, [.sendDone 7 0 4], [7]) ∧
    io_uring_run 5 ⟨false, [], [7]⟩ = (⟨false, [], [7]⟩, [], []) := by decide

/-- C2 counterexample: the claim says every async call's callback fires
exactly once.  In the overwrite scenario the first call's handler
(id 1) is replaced in the pending table by the second call before any
dispatch: the full trace contains no invocation of handler 1 (it fires
zero times), only handler 2's completion, and handler 1 is no longer
reachable from the final state. -/
theorem second_send_overwrites_first_callback_never_fires :
    overwrite_trace = [.sendDone 2 0 4] ∧
    countSend overwrite_trace 1 = 0 ∧
    pending_send_of overwrite_dispatch.1 3 = none := by decide

/-- C2 (amended): for every async_send_to / async_receive_from call, in
each backend, the callback supplied to that call is invoked exactly
once — synchronously when the immediate attempt fails hard (or, for the
readiness backend, succeeds, or its kevent registration fails), and
otherwise exactly once from the loop's dispatch of the registered
operation: kqueue handle_ready, the ring completion step, or a
successful completion-port dequeue.  Two code behaviours are excepted:
a callback belonging to an earlier operation still pending in the same
direction on the same readiness-backend descriptor is overwritten and
never invoked (the counterexample), and a completion-port dequeue that
reports failure ends run() without invoking the dequeued operation's
callback (last conjunct). -/
theorem per_call_callback_fires_exactly_once_with_dispatch
    (st : kq_state) (fd data_cap cap cap2 : Nat) (ep : endpoint) (h : Nat)
    (sys : sendSys) (rsysC : recvSys) (kev : Option Nat) (ssys : sendSys)
    (rsys : recvSys) (sqa sqa2 : Bool) (res resR : Int)
    (sysI : sendSys) (rsysI : recvSys) (bytesI fam a p : Nat)
    (items : List iocp_item) :
    countSend (kq_send_then_dispatch st fd data_cap ep h sys kev ssys rsys) h
      = 1 ∧
    countRecv (kq_recv_then_dispatch st fd cap h rsysC kev ssys rsys) h
      = 1 ∧
    countSend (ring_send_then_dispatch ep h sqa res) h = 1 ∧
    countRecv (ring_recv_then_dispatch cap2 h sqa2 resR fam a p) h = 1 ∧
    countSend (iocp_send_then_dispatch h sysI bytesI) h = 1 ∧
    countRecv (iocp_recv_then_dispatch h rsysI bytesI fam a p) h = 1 ∧
    iocp_run (.failed :: items) = [] := by
  refine ⟨?_, ?_, ?_, ?_, ?_, ?_, ?_⟩
  · cases sys with
    | ok bytes =>
        simp [kq_send_then_dispatch, kq_async_send_to, send_registered,
          countSend]
    | fail e =>
        by_cases hwb : is_would_block e = true
        · cases kev with
          | some ke =>
              simp [kq_send_then_dispatch, kq_async_send_to, send_registered,
                hwb, countSend]
          | none =>
              cases ssys with
              | ok b =>
                  simp [kq_send_then_dispatch, kq_async_send_to,
                    send_registered, hwb, kq_handle_ready,
                    fd_map.find?_insert, countSend]
              | fail e2 =>
                  simp [kq_send_then_dispatch, kq_async_send_to,
                    send_registered, hwb, kq_handle_ready,
                    fd_map.find?_insert, countSend]
        · cases kev with
          | some ke =>
              simp [kq_send_then_dispatch, kq_async_send_to,
                send_registered, hwb, countSend]
          | none =>
              simp [kq_send_then_dispatch, kq_async_send_to,
                send_registered, hwb, countSend]
  · cases rsysC with
    | dgram n fam a p =>
        simp [kq_recv_then_dispatch, kq_async_receive_from, recv_registered,
          countRecv]
    | fail e =>
        by_cases hwb : is_would_block e = true
        · cases kev with
          | some ke =>
              simp [kq_recv_then_dispatch, kq_async_receive_from,
                recv_registered, hwb, countRecv]
          | none =>
              cases rsys with
              | dgram n fam a p =>
                  simp [kq_recv_then_dispatch, kq_async_receive_from,
                    recv_registered, hwb, kq_handle_ready,
                    fd_map.find?_insert, countRecv]
              | fail e2 =>
                  simp [kq_recv_then_dispatch, kq_async_receive_from,
                    recv_registered, hwb, kq_handle_ready,
                    fd_map.find?_insert, countRecv]
        · cases kev with
          | some ke =>
              simp [kq_recv_then_dispatch, kq_async_receive_from,
                recv_registered, hwb, countRecv]
          | none =>
              simp [kq_recv_then_dispatch, kq_async_receive_from,
                recv_registered, hwb, countRecv]
  · cases sqa with
    | true =>
        by_cases hr : res < 0
        · simp [ring_send_then_dispatch, io_uring_async_send_to,
            ring_send_complete, hr, countSend]
        · simp [ring_send_then_dispatch, io_uring_async_send_to,
            ring_send_complete, hr, countSend]
    | false =>
        simp [ring_send_then_dispatch, io_uring_async_send_to,
          ring_send_complete, countSend, EBUSY]
  · cases sqa2 with
    | true =>
        by_cases hr : resR < 0
        · simp [ring_recv_then_dispatch, io_uring_async_receive_from,
            ring_recv_complete, hr, countRecv]
        · simp [ring_recv_then_dispatch, io_uring_async_receive_from,
            ring_recv_complete, hr, countRecv]
    | false =>
        simp [ring_recv_then_dispatch, io_uring_async_receive_from,
          ring_recv_complete, countRecv, EBUSY]
  · cases sysI with
    | ok bytes =>
        simp [iocp_send_then_dispatch, iocp_async_send_to, iocp_run,
          iocp_complete, countSend]
    | fail e =>
        by_cases hpend : e = WSA_IO_PENDING
        · simp [iocp_send_then_dispatch, iocp_async_send_to, hpend,
            iocp_run, iocp_complete, countSend]
        · simp [iocp_send_then_dispatch, iocp_async_send_to, hpend,
            iocp_complete, countSend]
  · cases rsysI with
    | dgram n fam2 a2 p2 =>
        simp [iocp_recv_then_dispatch, iocp_async_receive_from, iocp_run,
          iocp_complete, countRecv]
    | fail e =>
        by_cases hpend : e = WSA_IO_PENDING
        · simp [iocp_recv_then_dispatch, iocp_async_receive_from, hpend,
            iocp_run, iocp_complete, countRecv]
        · simp [iocp_recv_then_dispatch, iocp_async_receive_from, hpend,
            iocp_complete, countRecv]
  · rfl

/-- C4 counterexample: the claim says a WouldBlock error is never
delivered to a caller's completion callback.  In
kqueue_udp_socket::handle_ready the retried sendto's errno is passed to
the handler unfiltered: when the retry itself reports
EAGAIN/EWOULDBLOCK, the callback receives that would-block errno. -/
theorem handle_ready_delivers_would_block_to_callback :
    (kq_handle_ready pending_send_state 3 .write (.fail EAGAIN)
        (.fail EAGAIN)).2 = [.sendDone 5 EAGAIN 0] ∧
    is_would_block EAGAIN = true := by decide

/-- C4 (amended): in the readiness backend's immediate-attempt fast
path, a would-block result is never delivered to the callback: provided
the kevent registration succeeds, the call delivers no event, stores
the operation in the pending table and registers interest for the
matching direction.  A would-block errno arising later — at the
handle_ready retry or in a ring completion result — is delivered to the
callback like any other error. -/
theorem fast_path_would_block_registers_and_defers
    (st : kq_state) (fd data_cap cap : Nat) (ep : endpoint) (h e : Nat)
    (he : is_would_block e = true) :
    (kq_async_send_to st fd data_cap ep h (.fail e) none).2 = [] ∧
    pending_send_of (kq_async_send_to st fd data_cap ep h (.fail e) none).1
      fd = some h ∧
    (fd, direction.write) ∈
      (kq_async_send_to st fd data_cap ep h (.fail e) none).1.interest ∧
    (kq_async_receive_from st fd cap h (.fail e) none).2 = [] ∧
    pending_recv_of (kq_async_receive_from st fd cap h (.fail e) none).1
      fd = some h ∧
    (fd, direction.read) ∈
      (kq_async_receive_from st fd cap h (.fail e) none).1.interest := by
  refine ⟨?_, ?_, ?_, ?_, ?_, ?_⟩ <;>
    simp [kq_async_send_to, kq_async_receive_from, he, pending_send_of,
      pending_recv_of, fd_map.find?_insert, mem_add_interest]

theorem fast_path_would_block_registers_and_defers_witness :
    (kq_async_send_to ⟨[], []⟩ 3 4 endpoint.zero 7 (.fail 35) none).2
      = [] :=
  (fast_path_would_block_registers_and_defers ⟨[], []⟩ 3 4 9
    endpoint.zero 7 35 (by decide)).1

/-- C6: under the readiness backend every async call first attempts the
syscall immediately; on success or a hard (non-would-block) failure the
callback fires synchronously and nothing is stored or registered (the
backend state is unchanged); the state changes — operation stored,
interest registered — only on a would-block outcome. -/
theorem readiness_immediate_attempt_contract
    (st : kq_state) (fd data_cap cap : Nat) (ep : endpoint) (h : Nat) :
    (∀ bytes kev, kq_async_send_to st fd data_cap ep h (.ok bytes) kev =
       (st, [.sendDone h 0 bytes])) ∧
    (∀ e kev, is_would_block e = false →
       kq_async_send_to st fd data_cap ep h (.fail e) kev =
         (st, [.sendDone h e 0])) ∧
    (∀ sys kev, (kq_async_send_to st fd data_cap ep h sys kev).1 ≠ st →
       sys.wouldBlock = true) ∧
    (∀ n fam a p kev,
       kq_async_receive_from st fd cap h (.dgram n fam a p) kev =
         (st, [.recvDone h 0 (min n cap) (kq_src_endpoint fam a p)])) ∧
    (∀ e kev, is_would_block e = false →
       kq_async_receive_from st fd cap h (.fail e) kev =
         (st, [.recvDone h e 0 endpoint.zero])) ∧
    (∀ sys kev, (kq_async_receive_from st fd cap h sys kev).1 ≠ st →
       sys.wouldBlock = true) := by
  refine ⟨?_, ?_, ?_, ?_, ?_, ?_⟩
  · intro bytes kev; rfl
  · intro e kev hwb; simp [kq_async_send_to, hwb]
  · intro sys kev hne
    cases sys with
    | ok bytes => exact absurd rfl hne
    | fail e =>
        by_cases hwb : is_would_block e = true
        · simpa [sendSys.wouldBlock] using hwb
        · exact absurd (by simp [kq_async_send_to, hwb]) hne
  · intro n fam a p kev; rfl
  · intro e kev hwb; simp [kq_async_receive_from, hwb]
  · intro sys kev hne
    cases sys with
    | dgram n fam a p => exact absurd rfl hne
    | fail e =>
        by_cases hwb : is_would_block e = true
        · simpa [recvSys.wouldBlock] using hwb
        · exact absurd (by simp [kq_async_receive_from, hwb]) hne

theorem readiness_immediate_attempt_contract_witness :
    kq_async_send_to ⟨[], []⟩ 3 4 endpoint.zero 7 (.fail 13) none =
      (⟨[], []⟩, [.sendDone 7 13 0]) :=
  ((readiness_immediate_attempt_contract ⟨[], []⟩ 3 4 9
    endpoint.zero 7).2.1) 13 none (by decide)

/-- C8: a receive of a datagram larger than the buffer reports a byte
count equal to the buffer's capacity, with no error and the excess
discarded; a datagram that fits reports its full size.  Shown for the
readiness backend's immediate receive and for the ring backend's
completion under the POSIX truncation model. -/
theorem recv_truncation_reports_capacity
    (st : kq_state) (fd cap n fam a p h : Nat) (kev : Option Nat) :
    (cap < n →
      (kq_async_receive_from st fd cap h (.dgram n fam a p) kev).2 =
        [.recvDone h 0 cap (kq_src_endpoint fam a p)] ∧
      ring_recv_complete h (os_recv_result n cap) fam a p =
        .recvDone h 0 cap
          (if fam = AF_INET then ⟨ntohl a, ntohs p, ⟨fam, a, p⟩⟩
           else endpoint.zero)) ∧
    (n ≤ cap →
      (kq_async_receive_from st fd cap h (.dgram n fam a p) kev).2 =
        [.recvDone h 0 n (kq_src_endpoint fam a p)] ∧
      ring_recv_complete h (os_recv_result n cap) fam a p =
        .recvDone h 0 n
          (if fam = AF_INET then ⟨ntohl a, ntohs p, ⟨fam, a, p⟩⟩
           else endpoint.zero)) := by
  constructor
  · intro hlt
    have hmin : min n cap = cap := Nat.min_eq_right (Nat.le_of_lt hlt)
    constructor
    · simp [kq_async_receive_from, hmin]
    · simp [ring_recv_complete, os_recv_result, hmin]
  · intro hle
    have hmin : min n cap = n := Nat.min_eq_left hle
    constructor
    · simp [kq_async_receive_from, hmin]
    · simp [ring_recv_complete, os_recv_result, hmin]

theorem recv_truncation_reports_capacity_witness :
    (kq_async_receive_from ⟨[], []⟩ 3 4 7 (.dgram 10 2 1 1) none).2 =
      [.recvDone 7 0 4 (kq_src_endpoint 2 1 1)] :=
  ((recv_truncation_reports_capacity ⟨[], []⟩ 3 4 10 2 1 1 7 none).1
    (by decide)).1

/-- C9: under the ring backend, when the destination endpoint's embedded
kernel-format storage has family AF_INET, the submitted wire destination
is exactly that embedded sockaddr and the numeric address and port
fields are ignored (changing them changes nothing); only when the
embedded family is not AF_INET is the destination built from the
numeric fields via htonl/htons. -/
theorem ring_send_dest_from_embedded_sockaddr
    (ep : endpoint) (h a' p' : Nat) :
    (ep.sin.sin_family = AF_INET →
       (io_uring_async_send_to { ep with address := a', port := p' } h
          true).1 = some ⟨h, ep.sin⟩) ∧
    (ep.sin.sin_family ≠ AF_INET →
       (io_uring_async_send_to ep h true).1 =
         some ⟨h, ⟨AF_INET, htonl ep.address, htons ep.port⟩⟩) := by
  constructor
  · intro hfam
    simp [io_uring_async_send_to, io_uring_send_dest, hfam]
  · intro hfam
    simp [io_uring_async_send_to, io_uring_send_dest, hfam]

theorem ring_send_dest_from_embedded_sockaddr_witness :
    (io_uring_async_send_to ⟨77, 88, ⟨2, 5, 6⟩⟩ 9 true).1 =
      some ⟨9, ⟨2, 5, 6⟩⟩ :=
  (ring_send_dest_from_embedded_sockaddr ⟨1, 2, ⟨2, 5, 6⟩⟩ 9 77 88).1
    (by decide)

/-- C10: under the ring and readiness backends, a completed receive
whose sender family is not AF_INET, or which completed with an error,
delivers the zero endpoint to the callback; the endpoint is populated
only on success from an AF_INET sender. -/
theorem recv_source_endpoint_zero_unless_inet_success
    (st : kq_state) (fd cap n fam a p h e : Nat) (res : Int)
    (kev : Option Nat) (ops : pending_ops) (il : List (Nat × direction))
    (ssys : sendSys) :
    (res < 0 → ring_recv_complete h res fam a p =
       .recvDone h (-res).toNat 0 endpoint.zero) ∧
    (0 ≤ res → fam ≠ AF_INET → ring_recv_complete h res fam a p =
       .recvDone h 0 res.toNat endpoint.zero) ∧
    (0 ≤ res → fam = AF_INET → ring_recv_complete h res fam a p =
       .recvDone h 0 res.toNat ⟨ntohl a, ntohs p, ⟨fam, a, p⟩⟩) ∧
    (fam ≠ AF_INET →
       (kq_async_receive_from st fd cap h (.dgram n fam a p) kev).2 =
         [.recvDone h 0 (min n cap) endpoint.zero]) ∧
    (is_would_block e = false →
       (kq_async_receive_from st fd cap h (.fail e) kev).2 =
         [.recvDone h e 0 endpoint.zero]) ∧
    (ops.recv_handler = some h →
       (kq_handle_ready ⟨[(fd, ops)], il⟩ fd .read ssys (.fail e)).2 =
         [.recvDone h e 0 endpoint.zero]) ∧
    (ops.recv_handler = some h → fam ≠ AF_INET →
       (kq_handle_ready ⟨[(fd, ops)], il⟩ fd .read ssys
          (.dgram n fam a p)).2 =
         [.recvDone h 0 (min n ops.recv_buffer_cap) endpoint.zero]) := by
  refine ⟨?_, ?_, ?_, ?_, ?_, ?_, ?_⟩
  · intro hr; simp [ring_recv_complete, hr]
  · intro hr hfam
    simp [ring_recv_complete, Int.not_lt.mpr hr, hfam]
  · intro hr hfam
    simp [ring_recv_complete, Int.not_lt.mpr hr, hfam]
  · intro hfam
    simp [kq_async_receive_from, kq_src_endpoint, hfam]
  · intro hwb
    simp [kq_async_receive_from, hwb]
  · intro hh
    simp [kq_handle_ready, fd_map.find?, hh]
  · intro hh hfam
    simp [kq_handle_ready, fd_map.find?, hh, kq_src_endpoint, hfam]

theorem recv_source_endpoint_zero_unless_inet_success_witness :
    ring_recv_complete 1 (-4) 0 0 0 = .recvDone 1 4 0 endpoint.zero :=
  (recv_source_endpoint_zero_unless_inet_success ⟨[], []⟩ 3 4 0 0 0 0 1 0
    (-4) none pending_ops.default [] (.ok 0)).1 (by decide)

end UdpSketch
